import Mathlib

/-!
Verification of the light-beaconchain-explorer synchronization engine
(`indexer/synchronizer.go`) and the slot-page path-parameter parsing
(`handlers/slot.go`) against their natural-language specification.

The Go code is shallowly embedded: the synchronizer state becomes a Lean
structure, external collaborators (chain-node RPC, database, kill channel,
finalized-head oracle) become oracle fields of an environment record, and
the worker loop becomes a fueled recursion.  Machine integers of the Go
code (`uint64`, `int64`) are modelled as `Nat` / `Int`; no arithmetic in
the modelled paths overflows 64 bits for the inputs considered.
-/

/-! ## Data model (indexer package) -/

/-- Body of a signed beacon block header (`rpctypes`): the fields the
synchronizer reads are `Slot` and `ParentRoot`.  Roots are abstracted to
`Nat` identifiers. -/
structure BlockMessage where
  slot : Nat
  parentRoot : Nat
deriving DecidableEq

/-- Signed block header wrapper; the synchronizer accesses
`header.Message.Slot` and `header.Message.ParentRoot`. -/
structure BlockHeader where
  message : BlockMessage
deriving DecidableEq

/-- The `CacheBlock` record stored in `synchronizerState.cachedBlocks`:
block root, slot, decoded header and (abstracted) body. -/
structure CacheBlock where
  root : Nat
  slot : Nat
  header : BlockHeader
  block : Nat
deriving DecidableEq

/-- Data of a block-header RPC response (`headerRsp.Data`): the block root
and the header itself. -/
structure HeaderRspData where
  root : Nat
  header : BlockHeader
deriving DecidableEq

/-- Result of `GetEpochAssignments`: dependent root, dependent state
reference, and the three (abstracted) duty maps. -/
structure EpochAssignments where
  dependendRoot : Nat
  dependendStateRef : Nat
  proposerAssignments : Nat
  attestorAssignments : Nat
  syncAssignments : Nat
deriving DecidableEq

/-- The `EpochStats` record built by `syncEpoch`: epoch, dependent root,
duty maps, and the validator-state snapshot (`none` models the nil
pointer left by a failed `loadValidatorStats`). -/
structure EpochStats where
  epoch : Nat
  dependentRoot : Nat
  proposerAssignments : Nat
  attestorAssignments : Nat
  syncAssignments : Nat
  validatorStats : Option Nat
deriving DecidableEq

/-- The persisted sync cursor (`dbtypes.IndexerSyncState`). -/
structure IndexerSyncState where
  epoch : Nat
deriving DecidableEq

/-- Modelled from the spec: the observable storage state (the `db`
package is not part of the provided sources).  Spec section 6 gives the
storage contract; we track the set of epochs whose derived records were
persisted and the `indexer.syncstate` cursor record. -/
structure DbState where
  epochsData : List Nat
  syncState : Option IndexerSyncState
deriving DecidableEq

/-- Modelled from the spec: `db.IsEpochSynchronized(epoch) -> bool`
(spec section 6) — storage reports an epoch as synchronized when its
derived records were persisted. -/
def DbState.isEpochSynchronized (db : DbState) (e : Nat) : Bool :=
  db.epochsData.contains e

/-- Modelled from the spec: an open storage transaction
(`db.WriterDb.Beginx`).  Writes are buffered and become observable only
on commit (spec section 6: `tx.Commit()/tx.Rollback()`). -/
structure DbTx where
  pendingEpochData : List Nat
  pendingSyncState : Option IndexerSyncState
deriving DecidableEq

/-- Modelled from the spec: `tx.Commit()` atomically applies every
buffered write to the observable storage state. -/
def DbTx.commit (tx : DbTx) (db : DbState) : DbState :=
  { epochsData := tx.pendingEpochData ++ db.epochsData
    syncState :=
      match tx.pendingSyncState with
      | some s => some s
      | none => db.syncState }

/-- Errors returned by `syncEpoch`, mirroring the `fmt.Errorf` wrappers
in the Go code; RPC error payloads are abstracted to `Nat`. -/
inductive SyncError
  | fetchAssignments (msg : Nat)
  | fetchHeader (slot : Nat) (msg : Nat)
  | fetchBlock (slot : Nat) (msg : Nat)
  | validatorStats (epoch : Nat)
  | beginTx
  | persistData
  | setSyncState
  | commitTx
deriving DecidableEq

/-- A chain-node request issued by `syncEpoch`, recorded in order so that
claims about "no fetches" can be stated. -/
inductive FetchEvent
  | assignments (epoch : Nat)
  | header (slot : Nat)
  | body (root : Nat)
  | validatorStats (stateRef : Nat)
deriving DecidableEq

/-- Mutable state of `synchronizerState` relevant to the worker: the
`running` flag, the current epoch cursor, the cache high-water mark and
the slot-indexed block cache. -/
structure SyncState where
  running : Bool
  currentEpoch : Nat
  cachedSlot : Nat
  cachedBlocks : Nat → Option CacheBlock

/-- Environment of one worker run: chain configuration, the chain-node
client, the kill channel schedule (`kill k` is the value received by the
k-th `checkKillChan` call of the run), the finalized-head oracle, storage
fault injection, and panic injection.  `aggregateEpochVotes` is modelled
from the spec (section 4.3): a pure function of the cached window,
epoch, stats and target root, abstracted to an opaque `Nat` result. -/
structure SyncEnv where
  slotsPerEpoch : Nat
  getEpochAssignments : Nat → Except Nat (Option EpochAssignments)
  getBlockHeaderBySlot : Nat → Except Nat (Option HeaderRspData)
  getBlockBodyByBlockroot : Nat → Except Nat Nat
  getValidatorStats : Nat → Option Nat
  aggregateEpochVotes : (Nat → Option CacheBlock) → Nat → EpochStats → Option Nat → Nat
  kill : Nat → Bool
  finalizedEpoch : Int
  beginTxFails : Bool
  persistFails : Bool
  setSyncStateFails : Bool
  commitFails : Bool
  panicsAt : Nat → Bool

/-! ## isEpochAhead (synchronizer.go lines 35-44) -/

/-- `isEpochAhead` as written in the source: under the state mutex it
returns `true` when the worker is running and `sync.currentEpoch <
epoch`, and `false` otherwise. -/
def isEpochAhead (st : SyncState) (epoch : Nat) : Bool :=
  if st.running then
    if st.currentEpoch < epoch then true else false
  else false

/-! ## Slot handler path-parameter parsing (handlers/slot.go lines 42-56) -/

/-- `strings.Replace(s, "0x", "", -1)`: remove every non-overlapping
occurrence of the two-character substring, scanning left to right. -/
def replace0x : List Char → List Char
  | [] => []
  | '0' :: 'x' :: rest => replace0x rest
  | c :: rest => c :: replace0x rest

/-- Hexadecimal digit as accepted by Go's `encoding/hex` package. -/
def isGoHexDigit (c : Char) : Bool :=
  (decide ('0' ≤ c) && decide (c ≤ '9')) ||
  (decide ('a' ≤ c) && decide (c ≤ 'f')) ||
  (decide ('A' ≤ c) && decide (c ≤ 'F'))

/-- Whether `hex.DecodeString` returns a non-nil error: it does exactly
when the input has odd length or contains a non-hex character. -/
def hexDecodeFails (s : List Char) : Bool :=
  !((s.length % 2 == 0) && s.all isGoHexDigit)

/-- Accumulate the decimal value of a digit string; `none` on the first
non-digit character (Go `strconv` syntax error). -/
def digitsVal : List Char → Nat → Option Nat
  | [], acc => some acc
  | c :: rest, acc =>
    if c.isDigit then digitsVal rest (acc * 10 + (c.toNat - 48)) else none

/-- Value of a non-empty all-digit string; `none` if empty or any
character is not a decimal digit. -/
def digitsToNat : List Char → Option Nat
  | [] => none
  | cs => digitsVal cs 0

/-- Range check of `strconv.ParseInt(_, 10, 64)`: values outside the
signed 64-bit range yield `ErrRange`, i.e. a non-nil error. -/
def int64Range (v : Int) : Option Int :=
  if v < -(2 ^ 63) ∨ (2 ^ 63 - 1) < v then none else some v

/-- `strconv.ParseInt(s, 10, 64)`: optional leading sign, then a
non-empty run of decimal digits, checked against the 64-bit range.
`none` models a non-nil error. -/
def parseInt10 : List Char → Option Int
  | '+' :: rest => (digitsToNat rest).bind (fun n => int64Range (Int.ofNat n))
  | '-' :: rest => (digitsToNat rest).bind (fun n => int64Range (-(Int.ofNat n)))
  | s => (digitsToNat s).bind (fun n => int64Range (Int.ofNat n))

/-- Outcome of the path-parameter validation at the top of the `Slot`
handler.  `invalid` means the not-found page is rendered and the handler
returns before any call into `services.GlobalBeaconService`; the other
two constructors record which lookup the handler proceeds with. -/
inductive SlotPathParse
  | invalid
  | byRoot (rootHex : List Char)
  | bySlot (slot : Int)
deriving DecidableEq

/-- Lines 42-56 of `handlers/slot.go`: strip `0x` from the path
parameter, try `hex.DecodeString`; on decode error or length other than
64 fall back to `strconv.ParseInt` on the original parameter, rendering
the not-found page when parsing fails or the value is at least
2147483648. -/
def slotHandlerEntry (raw : List Char) : SlotPathParse :=
  let slotOrHash := replace0x raw
  if hexDecodeFails slotOrHash || (slotOrHash.length != 64) then
    match parseInt10 raw with
    | none => .invalid
    | some n => if (2147483648 : Int) ≤ n then .invalid else .bySlot n
  else .byRoot slotOrHash

/-- Whether the handler path reaches a `services.GlobalBeaconService`
query: every continuation except the early not-found return does
(`GetFinalizedBlockHead` at line 58 and the slot/root lookups that
follow). -/
def slotParseQueriesService : SlotPathParse → Bool
  | .invalid => false
  | .byRoot _ => true
  | .bySlot _ => true

/-! ## Claim C1: isEpochAhead direction -/

/-- Concrete state for the C1 counterexample: a worker is running at
epoch 5. -/
def c1State : SyncState :=
  { running := true, currentEpoch := 5, cachedSlot := 0, cachedBlocks := fun _ => none }

/-- C1 counterexample: with a worker running at current epoch 5 and the
query epoch 3, the worker's current epoch exceeds the query epoch, yet
`isEpochAhead` returns `false` — refuting the claim that the query is
true iff a worker is running and its current epoch exceeds the given
epoch. -/
theorem isEpochAhead_claim_counterexample :
    c1State.running = true ∧ 3 < c1State.currentEpoch ∧ isEpochAhead c1State 3 = false :=
  ⟨rfl, by decide, rfl⟩

/-- C1 (amended): `isEpochAhead` returns `true` iff a worker is running
and the given epoch exceeds the worker's current epoch; in particular it
returns `false` whenever no worker is running. -/
theorem isEpochAhead_iff (st : SyncState) (epoch : Nat) :
    isEpochAhead st epoch = true ↔ st.running = true ∧ st.currentEpoch < epoch := by
  unfold isEpochAhead
  constructor
  · intro h
    by_cases hr : st.running
    · refine ⟨hr, ?_⟩
      by_cases hlt : st.currentEpoch < epoch
      · exact hlt
      · simp [hr, hlt] at h
    · simp [hr] at h
  · rintro ⟨hr, hlt⟩
    simp [hr, hlt]

/-! ## Claim C10: invalid slot path parameter -/

/-- C10: whenever the stripped path parameter is not a 64-hex-character
block root and the original parameter either fails to parse as a decimal
integer or parses to a value of at least 2147483648, the `Slot` handler
renders the not-found page and returns without querying the beacon
service. -/
theorem slotHandler_invalid_param (raw : List Char)
    (hroot : ¬((replace0x raw).length = 64 ∧ (replace0x raw).all isGoHexDigit = true))
    (hval : parseInt10 raw = none ∨
      ∃ n, parseInt10 raw = some n ∧ (2147483648 : Int) ≤ n) :
    slotHandlerEntry raw = SlotPathParse.invalid ∧
      slotParseQueriesService (slotHandlerEntry raw) = false := by
  have hcond : (hexDecodeFails (replace0x raw) || ((replace0x raw).length != 64)) = true := by
    by_cases hlen : (replace0x raw).length = 64
    · have hhex : ¬((replace0x raw).all isGoHexDigit = true) := fun hh => hroot ⟨hlen, hh⟩
      have : hexDecodeFails (replace0x raw) = true := by
        unfold hexDecodeFails
        simp only [Bool.not_eq_true']
        cases hax : (replace0x raw).all isGoHexDigit
        · simp
        · exact absurd hax hhex
      simp [this]
    · have : ((replace0x raw).length != 64) = true := by
        simp [bne_iff_ne, hlen]
      simp [this]
  have hmain : slotHandlerEntry raw = SlotPathParse.invalid := by
    unfold slotHandlerEntry
    simp only [hcond, if_true]
    rcases hval with hnone | ⟨n, hn, hge⟩
    · simp [hnone]
    · simp [hn, hge]
  exact ⟨hmain, by rw [hmain]; rfl⟩

/-- C10 witness: the path parameter `"z9"` strips to `"z9"`, which is
not 64 hex characters and does not parse as a decimal integer, so the
handler renders not-found without a beacon-service query. -/
theorem slotHandler_invalid_param_witness :
    slotHandlerEntry ['z', '9'] = SlotPathParse.invalid ∧
      slotParseQueriesService (slotHandlerEntry ['z', '9']) = false :=
  slotHandler_invalid_param ['z', '9'] (by decide) (Or.inl (by decide))

/-! ## syncEpoch (synchronizer.go lines 137-257) -/

/-- Outcome of the header/body fetch loop (lines 158-182): completed,
aborted by a kill signal, or aborted by a chain-node error. -/
inductive FetchOutcome
  | ok
  | killed
  | fail (err : SyncError)
deriving DecidableEq

/-- Result of the fetch loop: outcome, the (possibly partially updated)
cache, the kill-check counter after the loop, and the chain-node
requests issued, in order. -/
structure FetchRes where
  outcome : FetchOutcome
  cache : Nat → Option CacheBlock
  killCtr : Nat
  events : List FetchEvent

/-- The header/body fetch loop of `syncEpoch` (lines 158-182): for each
slot in order, skip it when the high-water mark `cachedSlot` already
covers it; otherwise fetch the header (an error aborts the epoch, an
absent header skips the slot), poll the kill channel, fetch the body by
block root (an error aborts the epoch) and insert a `CacheBlock`. -/
def fetchSlots (env : SyncEnv) (cachedSlot : Nat)
    (cache : Nat → Option CacheBlock) (killCtr : Nat) :
    List Nat → FetchRes
  | [] => { outcome := .ok, cache := cache, killCtr := killCtr, events := [] }
  | slot :: rest =>
    if cachedSlot ≥ slot then
      fetchSlots env cachedSlot cache killCtr rest
    else
      match env.getBlockHeaderBySlot slot with
      | .error msg =>
        { outcome := .fail (.fetchHeader slot msg), cache := cache
          killCtr := killCtr, events := [.header slot] }
      | .ok none =>
        let r := fetchSlots env cachedSlot cache killCtr rest
        { r with events := .header slot :: r.events }
      | .ok (some headerRsp) =>
        if env.kill killCtr then
          { outcome := .killed, cache := cache, killCtr := killCtr + 1
            events := [.header slot] }
        else
          match env.getBlockBodyByBlockroot headerRsp.root with
          | .error msg =>
            { outcome := .fail (.fetchBlock slot msg), cache := cache
              killCtr := killCtr + 1, events := [.header slot, .body headerRsp.root] }
          | .ok body =>
            let cache1 := fun s =>
              if s = slot then
                some { root := headerRsp.root, slot := slot
                       header := headerRsp.header, block := body }
              else cache s
            let r := fetchSlots env cachedSlot cache1 (killCtr + 1) rest
            { r with events := .header slot :: .body headerRsp.root :: r.events }

/-- The first-block scan of lines 209-214: walk the epoch's own slot
range in order and return the first cached block found. -/
def findFirstBlock (cache : Nat → Option CacheBlock) : List Nat → Option CacheBlock
  | [] => none
  | s :: rest =>
    match cache s with
    | some b => some b
    | none => findFirstBlock cache rest

/-- The target-root computation of lines 216-223: if a first block
exists in the epoch's own slot range, its root when its header slot
equals the epoch's first slot, else its parent root; `none` models the
nil byte slice left when the epoch has no block at all. -/
def computeTargetRoot (cache : Nat → Option CacheBlock) (firstSlot : Nat)
    (ownSlots : List Nat) : Option Nat :=
  match findFirstBlock cache ownSlots with
  | none => none
  | some b =>
    if b.header.message.slot = firstSlot then some b.root
    else some b.header.message.parentRoot

/-- Modelled from the spec: `PersistEpochData(epoch, blocks, stats,
votes, tx)` (spec section 6, the `db` package is not in the sources) —
buffers the epoch's derived records in the open transaction, or fails
with the injected storage fault. -/
def persistEpochData (env : SyncEnv) (e : Nat) (tx : DbTx) : Except SyncError DbTx :=
  if env.persistFails then .error .persistData
  else .ok { tx with pendingEpochData := e :: tx.pendingEpochData }

/-- Modelled from the spec: `db.SetExplorerState("indexer.syncstate", …,
tx)` (spec section 6) — buffers the cursor record in the open
transaction, or fails with the injected storage fault. -/
def setExplorerSyncState (env : SyncEnv) (e : Nat) (tx : DbTx) : Except SyncError DbTx :=
  if env.setSyncStateFails then .error .setSyncState
  else .ok { tx with pendingSyncState := some { epoch := e } }

/-- The storage-transaction tail of `syncEpoch` (lines 227-247): open a
transaction, persist the epoch's derived data, write the sync cursor,
commit.  Any failure rolls back — the observable storage state is
returned unchanged, as guaranteed by the deferred `tx.Rollback()`. -/
def syncEpochTx (env : SyncEnv) (e : Nat) (db : DbState) : Except SyncError DbState :=
  if env.beginTxFails then .error .beginTx
  else
    match persistEpochData env e { pendingEpochData := [], pendingSyncState := none } with
    | .error er => .error er
    | .ok tx1 =>
      match setExplorerSyncState env e tx1 with
      | .error er => .error er
      | .ok tx2 =>
        if env.commitFails then .error .commitTx
        else .ok (tx2.commit db)

/-- Delete one slot from the cache (`delete(sync.cachedBlocks, slot)`). -/
def deleteSlot (cache : Nat → Option CacheBlock) (slot : Nat) : Nat → Option CacheBlock :=
  fun s => if s = slot then none else cache s

/-- The cache-cleanup loop of lines 249-254: walk the given slots and
delete every one that has a cache entry. -/
def evictSlots (cache : Nat → Option CacheBlock) (slots : List Nat) :
    Nat → Option CacheBlock :=
  slots.foldl (fun c slot => if (c slot).isSome then deleteSlot c slot else c) cache

/-- Slot list of the two-epoch fetch window (lines 156-157):
`firstSlot = epoch * SlotsPerEpoch` up to
`lastSlot = firstSlot + SlotsPerEpoch*2 - 1` inclusive. -/
def twoEpochSlots (env : SyncEnv) (e : Nat) : List Nat :=
  List.range' (e * env.slotsPerEpoch)
    (e * env.slotsPerEpoch + env.slotsPerEpoch * 2 - 1 + 1 - e * env.slotsPerEpoch)

/-- Slot list of the epoch's own range (line 208 reassigns `lastSlot`
to `firstSlot + SlotsPerEpoch - 1`). -/
def ownSlots (env : SyncEnv) (e : Nat) : List Nat :=
  List.range' (e * env.slotsPerEpoch)
    (e * env.slotsPerEpoch + env.slotsPerEpoch - 1 + 1 - e * env.slotsPerEpoch)

/-- Result of one `syncEpoch` call: the `(done, err)` return pair, the
synchronizer state (whose cache fields are mutated in place by the Go
code, including on abort paths), the storage state, the kill-check
counter after the call, and the chain-node requests issued. -/
structure EpochResult where
  done : Bool
  err : Option SyncError
  st : SyncState
  db : DbState
  killCtr : Nat
  trace : List FetchEvent

/-- `syncEpoch` (lines 137-257): skip an already-synchronized epoch;
fetch assignments; poll the kill channel; run the two-epoch fetch loop;
set the high-water mark; poll; load validator stats (a nil result is a
retryable error); poll; compute the target root and aggregate votes;
persist atomically; on commit success evict the epoch's own slots. -/
def syncEpoch (env : SyncEnv) (st : SyncState) (db : DbState)
    (killCtr : Nat) (e : Nat) : EpochResult :=
  if db.isEpochSynchronized e then
    { done := true, err := none, st := st, db := db, killCtr := killCtr, trace := [] }
  else
    match env.getEpochAssignments e with
    | .error msg =>
      { done := false, err := some (.fetchAssignments msg), st := st, db := db
        killCtr := killCtr, trace := [.assignments e] }
    | .ok none =>
      { done := false, err := none, st := st, db := db
        killCtr := killCtr, trace := [.assignments e] }
    | .ok (some assignments) =>
      if env.kill killCtr then
        { done := false, err := none, st := st, db := db
          killCtr := killCtr + 1, trace := [.assignments e] }
      else
        let fr := fetchSlots env st.cachedSlot st.cachedBlocks (killCtr + 1)
          (twoEpochSlots env e)
        match fr.outcome with
        | .fail er =>
          { done := false, err := some er, st := { st with cachedBlocks := fr.cache }
            db := db, killCtr := fr.killCtr, trace := .assignments e :: fr.events }
        | .killed =>
          { done := false, err := none, st := { st with cachedBlocks := fr.cache }
            db := db, killCtr := fr.killCtr, trace := .assignments e :: fr.events }
        | .ok =>
          let st1 : SyncState :=
            { st with cachedBlocks := fr.cache
                      cachedSlot := e * env.slotsPerEpoch + env.slotsPerEpoch * 2 - 1 }
          if env.kill fr.killCtr then
            { done := false, err := none, st := st1, db := db
              killCtr := fr.killCtr + 1, trace := .assignments e :: fr.events }
          else
            let epochStats : EpochStats :=
              { epoch := e, dependentRoot := assignments.dependendRoot
                proposerAssignments := assignments.proposerAssignments
                attestorAssignments := assignments.attestorAssignments
                syncAssignments := assignments.syncAssignments
                validatorStats := env.getValidatorStats assignments.dependendStateRef }
            let trace2 := .assignments e :: fr.events
              ++ [FetchEvent.validatorStats assignments.dependendStateRef]
            match epochStats.validatorStats with
            | none =>
              { done := false, err := some (.validatorStats e), st := st1, db := db
                killCtr := fr.killCtr + 1, trace := trace2 }
            | some _ =>
              if env.kill (fr.killCtr + 1) then
                { done := false, err := none, st := st1, db := db
                  killCtr := fr.killCtr + 2, trace := trace2 }
              else
                let targetRoot := computeTargetRoot st1.cachedBlocks
                  (e * env.slotsPerEpoch) (ownSlots env e)
                let _epochVotes := env.aggregateEpochVotes st1.cachedBlocks e
                  epochStats targetRoot
                match syncEpochTx env e db with
                | .error er =>
                  { done := false, err := some er, st := st1, db := db
                    killCtr := fr.killCtr + 2, trace := trace2 }
                | .ok db1 =>
                  { done := true, err := none
                    st := { st1 with cachedBlocks := evictSlots st1.cachedBlocks (ownSlots env e) }
                    db := db1, killCtr := fr.killCtr + 2, trace := trace2 }

/-! ## runSync (synchronizer.go lines 69-117) -/

/-- How a worker run ended: caught up to the finalized head
(`isComplete`), stopped by a kill signal at the cooldown checkpoint,
terminated by a recovered panic, or still looping when the modelling
fuel ran out. -/
inductive RunExit
  | complete
  | stopped
  | panicked
  | fuelOut
deriving DecidableEq

/-- Final observation of a worker run: exit kind, synchronizer state,
storage state and kill-check counter. -/
structure RunOut where
  exit : RunExit
  st : SyncState
  db : DbState
  killCtr : Nat

/-- The worker loop of `runSync` (lines 84-108), with fuel bounding the
number of iterations modelled.  Each iteration runs `syncEpoch` for the
current epoch (a panic injected there unwinds straight past the rest of
the function into the deferred `recover`); on success the cursor
advances and is compared against the finalized head; on failure the
10-second backoff is a no-op in the model; finally the cooldown
`checkKillChan` consumes the next kill-channel value and either breaks
or continues. -/
def runSyncLoop (env : SyncEnv) : Nat → SyncState → DbState → Nat → RunOut
  | 0, st, db, k => { exit := .fuelOut, st := st, db := db, killCtr := k }
  | fuel + 1, st, db, k =>
    let e := st.currentEpoch
    if env.panicsAt e then
      { exit := .panicked, st := st, db := db, killCtr := k }
    else
      let r := syncEpoch env st db k e
      if r.done then
        let st1 := { r.st with currentEpoch := e + 1 }
        if ((e + 1 : Nat) : Int) > env.finalizedEpoch then
          { exit := .complete, st := st1, db := r.db, killCtr := r.killCtr }
        else if env.kill r.killCtr then
          { exit := .stopped, st := st1, db := r.db, killCtr := r.killCtr + 1 }
        else runSyncLoop env fuel st1 r.db (r.killCtr + 1)
      else
        if env.kill r.killCtr then
          { exit := .stopped, st := r.st, db := r.db, killCtr := r.killCtr + 1 }
        else runSyncLoop env fuel r.st r.db (r.killCtr + 1)

/-- `runSync` (lines 69-117): reset the cache and high-water mark, run
the loop, and clear the `running` flag — except on the panic path, where
the deferred `recover` logs the fault but line 116 (`sync.running =
false`) is never reached, so the flag stays set. -/
def runSync (env : SyncEnv) (fuel : Nat) (st : SyncState) (db : DbState)
    (killCtr : Nat) : RunOut :=
  let st0 := { st with cachedBlocks := fun _ => none, cachedSlot := 0 }
  let out := runSyncLoop env fuel st0 db killCtr
  match out.exit with
  | .complete => { out with st := { out.st with running := false } }
  | .stopped => { out with st := { out.st with running := false } }
  | .panicked => out
  | .fuelOut => out

/-! ## Concrete environments and states for witnesses -/

/-- Baseline environment: one slot per epoch, assignments always
available, every slot empty (no header), validator stats available, no
kill signals, no storage faults, no panics, finalized epoch 0. -/
def envBase : SyncEnv :=
  { slotsPerEpoch := 1
    getEpochAssignments := fun _ =>
      .ok (some { dependendRoot := 7, dependendStateRef := 3
                  proposerAssignments := 0, attestorAssignments := 0
                  syncAssignments := 0 })
    getBlockHeaderBySlot := fun _ => .ok none
    getBlockBodyByBlockroot := fun _ => .ok 0
    getValidatorStats := fun _ => some 1
    aggregateEpochVotes := fun _ _ _ _ => 0
    kill := fun _ => false
    finalizedEpoch := 0
    beginTxFails := false
    persistFails := false
    setSyncStateFails := false
    commitFails := false
    panicsAt := fun _ => false }

/-- Worker state right after `startSync(0)` spawned the worker. -/
def stInit : SyncState :=
  { running := true, currentEpoch := 0, cachedSlot := 0, cachedBlocks := fun _ => none }

/-- Empty storage. -/
def dbEmpty : DbState := { epochsData := [], syncState := none }

/-! ## Claim C4: storage atomicity -/

/-- Auxiliary: a successful storage transaction for epoch `e` implies no
storage fault was injected, and the committed state is exactly the prior
state extended with the epoch's derived records and the cursor set to
that epoch. -/
theorem syncEpochTx_ok (env : SyncEnv) (e : Nat) (db db1 : DbState)
    (h : syncEpochTx env e db = .ok db1) :
    env.beginTxFails = false ∧ env.persistFails = false ∧
    env.setSyncStateFails = false ∧ env.commitFails = false ∧
    db1 = { epochsData := e :: db.epochsData, syncState := some { epoch := e } } := by
  unfold syncEpochTx persistEpochData setExplorerSyncState at h
  by_cases h1 : env.beginTxFails
  · simp [h1] at h
  by_cases h2 : env.persistFails
  · simp [h1, h2] at h
  by_cases h3 : env.setSyncStateFails
  · simp [h1, h2, h3] at h
  by_cases h4 : env.commitFails
  · simp [h1, h2, h3, h4] at h
  simp only [h1, h2, h3, h4, if_false, Bool.false_eq_true] at h
  refine ⟨by simp [h1], by simp [h2], by simp [h3], by simp [h4], ?_⟩
  simp only [Except.ok.injEq] at h
  rw [← h]
  rfl

/-- Auxiliary: every return path of `syncEpoch` leaves the observable
storage state untouched, except the single success path that commits the
transaction containing both the epoch's derived records and the cursor. -/
theorem syncEpoch_db_shape (env : SyncEnv) (st : SyncState) (db : DbState)
    (k e : Nat) :
    (syncEpoch env st db k e).db = db ∨
    ((syncEpoch env st db k e).done = true ∧
      syncEpochTx env e db = .ok (syncEpoch env st db k e).db ∧
      (syncEpoch env st db k e).db =
        { epochsData := e :: db.epochsData, syncState := some { epoch := e } }) := by
  by_cases hsync : db.isEpochSynchronized e
  · left; simp [syncEpoch, hsync]
  rcases hA : env.getEpochAssignments e with msg | oa
  · left; simp [syncEpoch, hsync, hA]
  rcases oa with _ | a
  · left; simp [syncEpoch, hsync, hA]
  by_cases hk1 : env.kill k
  · left; simp [syncEpoch, hsync, hA, hk1]
  rcases hfr : (fetchSlots env st.cachedSlot st.cachedBlocks (k + 1) (twoEpochSlots env e)).outcome
    with _ | _ | er
  · by_cases hk2 : env.kill ((fetchSlots env st.cachedSlot st.cachedBlocks (k + 1) (twoEpochSlots env e)).killCtr)
    · left; simp [syncEpoch, hsync, hA, hk1, hfr, hk2]
    rcases hvs : env.getValidatorStats a.dependendStateRef with _ | v
    · left; simp [syncEpoch, hsync, hA, hk1, hfr, hk2, hvs]
    by_cases hk3 : env.kill ((fetchSlots env st.cachedSlot st.cachedBlocks (k + 1) (twoEpochSlots env e)).killCtr + 1)
    · left; simp [syncEpoch, hsync, hA, hk1, hfr, hk2, hvs, hk3]
    rcases htx : syncEpochTx env e db with er | db1
    · left; simp [syncEpoch, hsync, hA, hk1, hfr, hk2, hvs, hk3, htx]
    right
    have hshape := syncEpochTx_ok env e db db1 htx
    have hdb : (syncEpoch env st db k e).db = db1 := by
      simp [syncEpoch, hsync, hA, hk1, hfr, hk2, hvs, hk3, htx]
    have hdone : (syncEpoch env st db k e).done = true := by
      simp [syncEpoch, hsync, hA, hk1, hfr, hk2, hvs, hk3, htx]
    exact ⟨hdone, congrArg Except.ok hdb.symm, hdb.trans hshape.2.2.2.2⟩
  · left; simp [syncEpoch, hsync, hA, hk1, hfr]
  · left; simp [syncEpoch, hsync, hA, hk1, hfr]

/-- C4: if any storage-transaction step of the Epoch Step fails (open,
persist of epoch data, sync-cursor write, or commit), the observable
storage state is unchanged afterwards — neither the epoch's derived
records nor an advanced cursor are visible; and whenever the cursor
record changes at all, it changes to the processed epoch within the same
committed transaction that persisted that epoch's derived records. -/
theorem syncEpoch_atomic (env : SyncEnv) (st : SyncState) (db : DbState) (k e : Nat) :
    ((env.beginTxFails || env.persistFails || env.setSyncStateFails ||
        env.commitFails) = true →
      (syncEpoch env st db k e).db = db) ∧
    ((syncEpoch env st db k e).db.syncState ≠ db.syncState →
      (syncEpoch env st db k e).db.syncState = some { epoch := e } ∧
      e ∈ (syncEpoch env st db k e).db.epochsData) := by
  rcases syncEpoch_db_shape env st db k e with hdb | ⟨hdone, htx, hdb⟩
  · exact ⟨fun _ => hdb, fun hne => absurd (by rw [hdb]) hne⟩
  · constructor
    · intro hfail
      rcases syncEpochTx_ok env e db _ htx with ⟨h1, h2, h3, h4, _⟩
      rw [h1, h2, h3, h4] at hfail
      simp at hfail
    · intro _
      rw [hdb]
      exact ⟨rfl, List.mem_cons_self e db.epochsData⟩

/-- Environment for the C4 witness: the commit is forced to fail. -/
def envCommitFail : SyncEnv := { envBase with commitFails := true }

/-- C4 witness: with a forced commit failure on a fresh epoch, storage
is observably unchanged after the step. -/
theorem syncEpoch_atomic_witness :
    (syncEpoch envCommitFail stInit dbEmpty 0 0).db = dbEmpty :=
  (syncEpoch_atomic envCommitFail stInit dbEmpty 0 0).1 (by decide)

/-! ## Claim C5: idempotent skip -/

/-- C5: for an epoch that storage already reports synchronized,
`syncEpoch` returns done with no error immediately, issues no chain-node
request, and changes neither the synchronizer state nor storage; calling
it again for the same epoch returns done again. -/
theorem syncEpoch_idempotent_skip (env : SyncEnv) (st : SyncState) (db : DbState)
    (k e : Nat) (h : db.isEpochSynchronized e = true) :
    (syncEpoch env st db k e).done = true ∧
    (syncEpoch env st db k e).err = none ∧
    (syncEpoch env st db k e).trace = [] ∧
    (syncEpoch env st db k e).st = st ∧
    (syncEpoch env st db k e).db = db ∧
    (syncEpoch env (syncEpoch env st db k e).st (syncEpoch env st db k e).db
      (syncEpoch env st db k e).killCtr e).done = true := by
  simp [syncEpoch, h]

/-- Storage that already holds epoch 0. -/
def dbSynced0 : DbState := { epochsData := [0], syncState := some { epoch := 0 } }

/-- C5 witness: epoch 0 already synchronized — the step is a pure no-op
"done" answer, twice. -/
theorem syncEpoch_idempotent_skip_witness :
    (syncEpoch envBase stInit dbSynced0 0 0).done = true ∧
    (syncEpoch envBase stInit dbSynced0 0 0).err = none ∧
    (syncEpoch envBase stInit dbSynced0 0 0).trace = [] ∧
    (syncEpoch envBase stInit dbSynced0 0 0).st = stInit ∧
    (syncEpoch envBase stInit dbSynced0 0 0).db = dbSynced0 ∧
    (syncEpoch envBase (syncEpoch envBase stInit dbSynced0 0 0).st
      (syncEpoch envBase stInit dbSynced0 0 0).db
      (syncEpoch envBase stInit dbSynced0 0 0).killCtr 0).done = true :=
  syncEpoch_idempotent_skip envBase stInit dbSynced0 0 0 (by decide)

/-! ## Claim C2: stop signal at a non-cooldown checkpoint -/

/-- Environment for C2: a single kill signal is delivered at the very
first `checkKillChan` poll of the run — the checkpoint after fetching
epoch assignments and before fetching headers — and never again. -/
def envC2 : SyncEnv := { envBase with kill := fun k => k == 0 }

/-- C2 exhibit: the signal observed at the before-header-fetch
checkpoint aborts the epoch attempt with nothing persisted (the first
conjuncts), but the worker loop does not exit: the cooldown check finds
no pending signal (the channel value was already consumed inside
`syncEpoch`), so after one iteration the loop is still running with the
cursor unmoved, and with one more iteration it retries the same epoch,
persists it and advances the cursor to completion — contradicting the
claim that the loop exits for that epoch. -/
theorem runSync_kill_swallowed :
    envC2.kill 0 = true ∧
    (syncEpoch envC2 stInit dbEmpty 0 0).done = false ∧
    (syncEpoch envC2 stInit dbEmpty 0 0).err = none ∧
    (syncEpoch envC2 stInit dbEmpty 0 0).db = dbEmpty ∧
    (syncEpoch envC2 stInit dbEmpty 0 0).trace = [FetchEvent.assignments 0] ∧
    (runSync envC2 1 stInit dbEmpty 0).exit = RunExit.fuelOut ∧
    (runSync envC2 1 stInit dbEmpty 0).db = dbEmpty ∧
    (runSync envC2 1 stInit dbEmpty 0).st.currentEpoch = 0 ∧
    (runSync envC2 2 stInit dbEmpty 0).exit = RunExit.complete ∧
    (runSync envC2 2 stInit dbEmpty 0).db.epochsData = [0] ∧
    (runSync envC2 2 stInit dbEmpty 0).st.currentEpoch = 1 := by
  decide

/-! ## Claim C3: panic containment and the running flag -/

/-- Environment for C3: an unexpected fault is injected into the first
loop iteration's body. -/
def envC3 : SyncEnv := { envBase with panicsAt := fun e => e == 0 }

/-- C3 exhibit: the panic is caught at the worker's top level and the
worker terminates without retry and without persisting anything — but
line 116 (`sync.running = false`) is skipped by the unwinding, so the
running flag stays set and `isEpochAhead` can still answer `true`,
contradicting the claim that the flag is cleared and `IsAheadOf`
subsequently returns `false`. -/
theorem runSync_panic_leaves_running :
    (runSync envC3 5 stInit dbEmpty 0).exit = RunExit.panicked ∧
    (runSync envC3 5 stInit dbEmpty 0).db = dbEmpty ∧
    (runSync envC3 5 stInit dbEmpty 0).st.running = true ∧
    isEpochAhead (runSync envC3 5 stInit dbEmpty 0).st 1 = true := by
  decide

/-! ## Claim C6: target root -/

/-- Auxiliary: with a positive `SlotsPerEpoch`, the epoch's own slot
range is the `SlotsPerEpoch` consecutive slots from its first slot. -/
theorem ownSlots_eq (env : SyncEnv) (e : Nat) (h : 0 < env.slotsPerEpoch) :
    ownSlots env e = List.range' (e * env.slotsPerEpoch) env.slotsPerEpoch := by
  unfold ownSlots
  congr 1
  omega

/-- Auxiliary: with a positive `SlotsPerEpoch`, the two-epoch fetch
window is the `SlotsPerEpoch * 2` consecutive slots from the epoch's
first slot. -/
theorem twoEpochSlots_eq (env : SyncEnv) (e : Nat) (h : 0 < env.slotsPerEpoch) :
    twoEpochSlots env e = List.range' (e * env.slotsPerEpoch) (env.slotsPerEpoch * 2) := by
  unfold twoEpochSlots
  congr 1
  omega

/-- Auxiliary: the first-block scan finds nothing in an all-empty slot
range. -/
theorem findFirstBlock_eq_none (cache : Nat → Option CacheBlock) (slots : List Nat)
    (h : ∀ s ∈ slots, cache s = none) : findFirstBlock cache slots = none := by
  induction slots with
  | nil => rfl
  | cons s rest ih =>
    simp only [findFirstBlock]
    rw [h s (List.mem_cons_self s rest)]
    exact ih fun j hj => h j (List.mem_cons_of_mem s hj)

/-- Auxiliary: the first-block scan over an ascending slot range returns
the block cached at the least populated slot. -/
theorem findFirstBlock_range'_first (cache : Nat → Option CacheBlock) :
    ∀ (n firstSlot k : Nat) (b : CacheBlock), k ∈ List.range' firstSlot n →
    cache k = some b →
    (∀ j ∈ List.range' firstSlot n, j < k → cache j = none) →
    findFirstBlock cache (List.range' firstSlot n) = some b := by
  intro n
  induction n with
  | zero =>
    intro firstSlot k b hk
    simp [List.range'] at hk
  | succ m ih =>
    intro firstSlot k b hk hb hmin
    have hmem : firstSlot ∈ List.range' firstSlot (m + 1) :=
      List.mem_range'_1.mpr ⟨le_refl _, by omega⟩
    rw [List.range'_succ]
    simp only [findFirstBlock]
    rcases hc : cache firstSlot with _ | b0
    · have hk1 : k ∈ List.range' (firstSlot + 1) m := by
        have := (by rwa [List.range'_succ] at hk : k ∈ firstSlot :: List.range' (firstSlot + 1) m)
        rcases List.mem_cons.mp this with he | ht
        · rw [he] at hb; rw [hb] at hc; cases hc
        · exact ht
      have hmin1 : ∀ j ∈ List.range' (firstSlot + 1) m, j < k → cache j = none := by
        intro j hj hjk
        have hj1 := List.mem_range'_1.mp hj
        exact hmin j (List.mem_range'_1.mpr ⟨by omega, by omega⟩) hjk
      exact ih (firstSlot + 1) k b hk1 hb hmin1
    · have hfk : firstSlot ≤ k := (List.mem_range'_1.mp hk).1
      rcases Nat.lt_or_ge firstSlot k with hlt | hge
      · have hnone := hmin firstSlot hmem hlt
        rw [hnone] at hc
        cases hc
      · have hek : k = firstSlot := Nat.le_antisymm hge hfk
        rw [hek] at hb
        rw [hb] at hc
        injection hc with hbb
        rw [hbb]

/-- C6: the target root computed by the Epoch Step for epoch `e` is
empty (`none`) when no block is cached anywhere in the epoch's own slot
range; and when a first cached block exists in that range, it is that
block's own root if the block's header slot equals the epoch's first
slot, and otherwise that block's parent root. -/
theorem targetRoot_spec (env : SyncEnv) (cache : Nat → Option CacheBlock)
    (e k : Nat) (b : CacheBlock) (hspe : 0 < env.slotsPerEpoch) :
    ((∀ s ∈ ownSlots env e, cache s = none) →
      computeTargetRoot cache (e * env.slotsPerEpoch) (ownSlots env e) = none) ∧
    (k ∈ ownSlots env e → cache k = some b →
      (∀ j ∈ ownSlots env e, j < k → cache j = none) →
      computeTargetRoot cache (e * env.slotsPerEpoch) (ownSlots env e) =
        if b.header.message.slot = e * env.slotsPerEpoch then some b.root
        else some b.header.message.parentRoot) := by
  constructor
  · intro h
    unfold computeTargetRoot
    rw [findFirstBlock_eq_none cache _ h]
  · intro hk hb hmin
    unfold computeTargetRoot
    rw [ownSlots_eq env e hspe] at hk hmin ⊢
    rw [findFirstBlock_range'_first cache env.slotsPerEpoch (e * env.slotsPerEpoch) k b hk hb hmin]

/-- Concrete cache for the C6 witness: with two slots per epoch, epoch 0
has no block at slot 0 and a block at slot 1 whose header slot is 1 and
whose parent root is 55. -/
def cacheC6 : Nat → Option CacheBlock := fun s =>
  if s = 1 then
    some { root := 42, slot := 1
           header := { message := { slot := 1, parentRoot := 55 } }, block := 0 }
  else none

/-- Environment for the C6 witness: two slots per epoch. -/
def envSpe2 : SyncEnv := { envBase with slotsPerEpoch := 2 }

/-- C6 witness: for an epoch whose first slot is empty and whose second
slot holds a block, the target root is that block's parent root 55 (not
its own root 42); and an all-empty epoch yields an empty target root. -/
theorem targetRoot_spec_witness :
    computeTargetRoot cacheC6 0 (ownSlots envSpe2 0) = some 55 ∧
    computeTargetRoot (fun _ => none) 0 (ownSlots envSpe2 0) = none := by
  constructor
  · have h := (targetRoot_spec envSpe2 cacheC6 0 1
      { root := 42, slot := 1
        header := { message := { slot := 1, parentRoot := 55 } }, block := 0 }
      (by decide)).2 (by decide) (by decide) (by decide)
    have h2 : (0 : Nat) * envSpe2.slotsPerEpoch = 0 := by decide
    rw [h2] at h
    rw [h]
    decide
  · have h := (targetRoot_spec envSpe2 (fun _ => none) 0 0
      { root := 0, slot := 0
        header := { message := { slot := 0, parentRoot := 0 } }, block := 0 }
      (by decide)).1 (by intro s _; rfl)
    have h2 : (0 : Nat) * envSpe2.slotsPerEpoch = 0 := by decide
    rw [h2] at h
    exact h

/-! ## Claim C7: eviction frame effect -/

/-- Auxiliary: one step of the cleanup loop deletes exactly the visited
slot (deleting is a no-op on a slot that was already absent). -/
theorem evictStep_apply (cache : Nat → Option CacheBlock) (t s : Nat) :
    (if (cache t).isSome then deleteSlot cache t else cache) s =
      if s = t then none else cache s := by
  by_cases hct : (cache t).isSome
  · simp [hct, deleteSlot]
  · rw [if_neg hct]
    by_cases hst : s = t
    · rw [if_pos hst, hst]
      exact Option.not_isSome_iff_eq_none.mp (by simpa using hct)
    · rw [if_neg hst]

/-- Auxiliary: the cleanup loop removes exactly the entries whose slots
appear in the visited list and leaves all other entries unchanged. -/
theorem evictSlots_apply (slots : List Nat) :
    ∀ (cache : Nat → Option CacheBlock) (s : Nat),
    evictSlots cache slots s = if s ∈ slots then none else cache s := by
  induction slots with
  | nil => intro cache s; simp [evictSlots]
  | cons t rest ih =>
    intro cache s
    have hstep : evictSlots cache (t :: rest) =
        evictSlots (if (cache t).isSome then deleteSlot cache t else cache) rest := by
      simp [evictSlots, List.foldl_cons]
    rw [hstep, ih]
    by_cases hr : s ∈ rest
    · simp [hr]
    · rw [if_neg hr, evictStep_apply]
      by_cases hst : s = t
      · simp [hst]
      · rw [if_neg hst, if_neg (by simp [List.mem_cons, hst, hr])]

/-- Auxiliary: when `syncEpoch` reports done for an epoch storage did
not already have, the run necessarily went through the full success
path: the fetch loop completed, the high-water mark was set to the end
of the two-epoch window, the resulting cache is the fetched cache with
the epoch's own slots evicted, and every header request of the call was
issued by the fetch loop. -/
theorem syncEpoch_success_shape (env : SyncEnv) (st : SyncState) (db : DbState)
    (k e : Nat) (hsync : db.isEpochSynchronized e = false)
    (hdone : (syncEpoch env st db k e).done = true) :
    (fetchSlots env st.cachedSlot st.cachedBlocks (k + 1) (twoEpochSlots env e)).outcome =
      FetchOutcome.ok ∧
    (syncEpoch env st db k e).st.cachedBlocks =
      evictSlots (fetchSlots env st.cachedSlot st.cachedBlocks (k + 1) (twoEpochSlots env e)).cache
        (ownSlots env e) ∧
    (syncEpoch env st db k e).st.cachedSlot =
      e * env.slotsPerEpoch + env.slotsPerEpoch * 2 - 1 ∧
    (∀ s, FetchEvent.header s ∈ (syncEpoch env st db k e).trace →
      FetchEvent.header s ∈
        (fetchSlots env st.cachedSlot st.cachedBlocks (k + 1) (twoEpochSlots env e)).events) := by
  rcases hA : env.getEpochAssignments e with msg | oa
  · simp [syncEpoch, hsync, hA] at hdone
  rcases oa with _ | a
  · simp [syncEpoch, hsync, hA] at hdone
  by_cases hk1 : env.kill k
  · simp [syncEpoch, hsync, hA, hk1] at hdone
  rcases hfr : (fetchSlots env st.cachedSlot st.cachedBlocks (k + 1) (twoEpochSlots env e)).outcome
    with _ | _ | er
  · by_cases hk2 : env.kill ((fetchSlots env st.cachedSlot st.cachedBlocks (k + 1) (twoEpochSlots env e)).killCtr)
    · simp [syncEpoch, hsync, hA, hk1, hfr, hk2] at hdone
    rcases hvs : env.getValidatorStats a.dependendStateRef with _ | v
    · simp [syncEpoch, hsync, hA, hk1, hfr, hk2, hvs] at hdone
    by_cases hk3 : env.kill ((fetchSlots env st.cachedSlot st.cachedBlocks (k + 1) (twoEpochSlots env e)).killCtr + 1)
    · simp [syncEpoch, hsync, hA, hk1, hfr, hk2, hvs, hk3] at hdone
    rcases htx : syncEpochTx env e db with er | db1
    · simp [syncEpoch, hsync, hA, hk1, hfr, hk2, hvs, hk3, htx] at hdone
    refine ⟨rfl, ?_, ?_, ?_⟩
    · simp [syncEpoch, hsync, hA, hk1, hfr, hk2, hvs, hk3, htx]
    · simp [syncEpoch, hsync, hA, hk1, hfr, hk2, hvs, hk3, htx]
    · intro s hs
      have htr : (syncEpoch env st db k e).trace =
          FetchEvent.assignments e ::
            (fetchSlots env st.cachedSlot st.cachedBlocks (k + 1) (twoEpochSlots env e)).events
            ++ [FetchEvent.validatorStats a.dependendStateRef] := by
        simp [syncEpoch, hsync, hA, hk1, hfr, hk2, hvs, hk3, htx]
      rw [htr] at hs
      rcases List.mem_cons.mp hs with h | h
      · exact absurd h (by simp)
      · rcases List.mem_append.mp h with h2 | h2
        · exact h2
        · exact absurd (List.mem_singleton.mp h2) (by simp)
  · simp [syncEpoch, hsync, hA, hk1, hfr] at hdone
  · simp [syncEpoch, hsync, hA, hk1, hfr] at hdone

/-- C7: after a successful commit for a fresh epoch, the cache retains
exactly the fetched entries outside the epoch's own slot range — every
slot inside the epoch's own range is gone and every slot outside it (in
particular the whole lookahead epoch) is exactly as the fetch phase left
it. -/
theorem syncEpoch_evicts_own_range (env : SyncEnv) (st : SyncState) (db : DbState)
    (k e : Nat) (hspe : 0 < env.slotsPerEpoch)
    (hsync : db.isEpochSynchronized e = false)
    (hdone : (syncEpoch env st db k e).done = true) :
    (∀ s, e * env.slotsPerEpoch ≤ s → s < (e + 1) * env.slotsPerEpoch →
      (syncEpoch env st db k e).st.cachedBlocks s = none) ∧
    (∀ s, s < e * env.slotsPerEpoch ∨ (e + 1) * env.slotsPerEpoch ≤ s →
      (syncEpoch env st db k e).st.cachedBlocks s =
        (fetchSlots env st.cachedSlot st.cachedBlocks (k + 1) (twoEpochSlots env e)).cache s) := by
  obtain ⟨-, hcb, -, -⟩ := syncEpoch_success_shape env st db k e hsync hdone
  have hmul : (e + 1) * env.slotsPerEpoch = e * env.slotsPerEpoch + env.slotsPerEpoch :=
    Nat.succ_mul e env.slotsPerEpoch
  constructor
  · intro s h1 h2
    rw [congrFun hcb s, evictSlots_apply, if_pos]
    rw [ownSlots_eq env e hspe]
    exact List.mem_range'_1.mpr ⟨h1, by omega⟩
  · intro s hout
    rw [congrFun hcb s, evictSlots_apply, if_neg]
    rw [ownSlots_eq env e hspe]
    intro hmem
    have := List.mem_range'_1.mp hmem
    omega

/-- Environment with two slots per epoch and a block proposed at every
slot: slot `s` has root `s + 100` and parent root `s + 99`. -/
def envBlocks : SyncEnv :=
  { envBase with
    slotsPerEpoch := 2
    getBlockHeaderBySlot := fun s =>
      .ok (some { root := s + 100
                  header := { message := { slot := s, parentRoot := s + 99 } } }) }

/-- C7 witness: after the successful epoch-0 step under `envBlocks`,
slot 1 (epoch 0's own range) is evicted while slot 2 (the lookahead
epoch) still holds exactly what the fetch phase cached. -/
theorem syncEpoch_evicts_own_range_witness :
    (syncEpoch envBlocks stInit dbEmpty 0 0).st.cachedBlocks 1 = none ∧
    (syncEpoch envBlocks stInit dbEmpty 0 0).st.cachedBlocks 2 =
      (fetchSlots envBlocks stInit.cachedSlot stInit.cachedBlocks 1
        (twoEpochSlots envBlocks 0)).cache 2 := by
  have h := syncEpoch_evicts_own_range envBlocks stInit dbEmpty 0 0
    (by decide) (by decide) (by decide)
  exact ⟨h.1 1 (by decide) (by decide), h.2 2 (Or.inr (by decide))⟩

/-! ## Claim C8: absent header vs chain-node error in the fetch loop -/

/-- C8: in the header/body fetch loop, a slot whose header request
succeeds with an absent header is skipped — no cache entry is inserted,
no kill check is consumed and no error is raised, the loop simply
continues with the header request recorded; whereas a header request or
a body request that returns an error makes the loop report failure, and
a failing fetch loop makes the whole `syncEpoch` attempt return not-done
with that retryable error and storage untouched. -/
theorem fetch_absent_skips_error_aborts (env : SyncEnv)
    (cachedSlot k slot msg : Nat) (cache : Nat → Option CacheBlock)
    (rest : List Nat) (hdr : HeaderRspData)
    (st : SyncState) (db : DbState) (e : Nat) (a : EpochAssignments) (er : SyncError) :
    (cachedSlot < slot → env.getBlockHeaderBySlot slot = .ok none →
      fetchSlots env cachedSlot cache k (slot :: rest) =
        { fetchSlots env cachedSlot cache k rest with
          events := .header slot :: (fetchSlots env cachedSlot cache k rest).events }) ∧
    (cachedSlot < slot → env.getBlockHeaderBySlot slot = .error msg →
      (fetchSlots env cachedSlot cache k (slot :: rest)).outcome =
        FetchOutcome.fail (.fetchHeader slot msg)) ∧
    (cachedSlot < slot → env.getBlockHeaderBySlot slot = .ok (some hdr) →
      env.kill k = false → env.getBlockBodyByBlockroot hdr.root = .error msg →
      (fetchSlots env cachedSlot cache k (slot :: rest)).outcome =
        FetchOutcome.fail (.fetchBlock slot msg)) ∧
    (db.isEpochSynchronized e = false →
      env.getEpochAssignments e = .ok (some a) → env.kill k = false →
      (fetchSlots env st.cachedSlot st.cachedBlocks (k + 1) (twoEpochSlots env e)).outcome =
        FetchOutcome.fail er →
      (syncEpoch env st db k e).done = false ∧
      (syncEpoch env st db k e).err = some er ∧
      (syncEpoch env st db k e).db = db) := by
  refine ⟨?_, ?_, ?_, ?_⟩
  · intro h1 h2
    simp [fetchSlots, if_neg (Nat.not_le.mpr h1), h2]
  · intro h1 h2
    simp [fetchSlots, if_neg (Nat.not_le.mpr h1), h2]
  · intro h1 h2 h3 h4
    simp [fetchSlots, if_neg (Nat.not_le.mpr h1), h2, h3, h4]
  · intro hsync hA hk hfr
    refine ⟨?_, ?_, ?_⟩ <;> simp [syncEpoch, hsync, hA, hk, hfr]

/-- Environment whose header requests all fail with error payload 5. -/
def envHeaderErr : SyncEnv :=
  { envBase with getBlockHeaderBySlot := fun _ => .error 5 }

/-- C8 witness: under `envBase` slot 1's header is absent, so the loop
result for `[1]` equals the empty-loop result with the header request
recorded; under `envHeaderErr` the very same loop fails with the
header-fetch error, and the whole epoch-0 step aborts not-done with that
retryable error and storage untouched (slot 0 is skipped by the
high-water mark, so slot 1 is the first request). -/
theorem fetch_absent_skips_error_aborts_witness :
    fetchSlots envBase 0 (fun _ => none) 0 [1] =
      { fetchSlots envBase 0 (fun _ => none) 0 [] with
        events := [FetchEvent.header 1] } ∧
    (fetchSlots envHeaderErr 0 (fun _ => none) 0 [1]).outcome =
      FetchOutcome.fail (.fetchHeader 1 5) ∧
    (syncEpoch envHeaderErr stInit dbEmpty 0 0).done = false ∧
    (syncEpoch envHeaderErr stInit dbEmpty 0 0).err =
      some (.fetchHeader 1 5) ∧
    (syncEpoch envHeaderErr stInit dbEmpty 0 0).db = dbEmpty := by
  have h1 := (fetch_absent_skips_error_aborts envBase 0 0 1 5 (fun _ => none) []
    { root := 0, header := { message := { slot := 0, parentRoot := 0 } } }
    stInit dbEmpty 0
    { dependendRoot := 7, dependendStateRef := 3, proposerAssignments := 0
      attestorAssignments := 0, syncAssignments := 0 }
    (.fetchHeader 1 5)).1 (by decide) rfl
  have h2 := (fetch_absent_skips_error_aborts envHeaderErr 0 0 1 5 (fun _ => none) []
    { root := 0, header := { message := { slot := 0, parentRoot := 0 } } }
    stInit dbEmpty 0
    { dependendRoot := 7, dependendStateRef := 3, proposerAssignments := 0
      attestorAssignments := 0, syncAssignments := 0 }
    (.fetchHeader 1 5)).2.1 (by decide) rfl
  have h4 := (fetch_absent_skips_error_aborts envHeaderErr 0 0 1 5 (fun _ => none) []
    { root := 0, header := { message := { slot := 0, parentRoot := 0 } } }
    stInit dbEmpty 0
    { dependendRoot := 7, dependendStateRef := 3, proposerAssignments := 0
      attestorAssignments := 0, syncAssignments := 0 }
    (.fetchHeader 1 5)).2.2.2 (by decide) rfl (by decide) (by decide)
  exact ⟨h1, h2, h4.1, h4.2.1, h4.2.2⟩

/-! ## Claim C9: cache monotonicity -/

/-- Auxiliary: every header request recorded by the fetch loop is for a
slot of the visited list strictly above the high-water mark — slots at
or below `cachedSlot` are never requested. -/
theorem fetchSlots_header_mem (env : SyncEnv) (cs : Nat) :
    ∀ (slots : List Nat) (cache : Nat → Option CacheBlock) (k s : Nat),
    FetchEvent.header s ∈ (fetchSlots env cs cache k slots).events →
    s ∈ slots ∧ cs < s := by
  intro slots
  induction slots with
  | nil =>
    intro cache k s h
    simp [fetchSlots] at h
  | cons t rest ih =>
    intro cache k s h
    by_cases hskip : t ≤ cs
    · have hef : (fetchSlots env cs cache k (t :: rest)).events =
          (fetchSlots env cs cache k rest).events := by
        simp [fetchSlots, hskip]
      rw [hef] at h
      obtain ⟨hm, hl⟩ := ih cache k s h
      exact ⟨List.mem_cons_of_mem t hm, hl⟩
    · have hlt : cs < t := Nat.not_le.mp hskip
      rcases hh : env.getBlockHeaderBySlot t with msg | oh
      · have hef : (fetchSlots env cs cache k (t :: rest)).events = [FetchEvent.header t] := by
          simp [fetchSlots, hskip, hh]
        rw [hef] at h
        have hst := List.mem_singleton.mp h
        injection hst with hst2
        subst hst2
        exact ⟨List.mem_cons_self s rest, hlt⟩
      · rcases oh with _ | hd
        · have hef : (fetchSlots env cs cache k (t :: rest)).events =
              FetchEvent.header t :: (fetchSlots env cs cache k rest).events := by
            simp [fetchSlots, hskip, hh]
          rw [hef] at h
          rcases List.mem_cons.mp h with he | hm
          · injection he with hst2
            subst hst2
            exact ⟨List.mem_cons_self s rest, hlt⟩
          · obtain ⟨hm2, hl⟩ := ih cache k s hm
            exact ⟨List.mem_cons_of_mem t hm2, hl⟩
        · by_cases hk : env.kill k
          · have hef : (fetchSlots env cs cache k (t :: rest)).events = [FetchEvent.header t] := by
              simp [fetchSlots, hskip, hh, hk]
            rw [hef] at h
            have hst := List.mem_singleton.mp h
            injection hst with hst2
            subst hst2
            exact ⟨List.mem_cons_self s rest, hlt⟩
          · rcases hb : env.getBlockBodyByBlockroot hd.root with msg | body
            · have hef : (fetchSlots env cs cache k (t :: rest)).events =
                  [FetchEvent.header t, FetchEvent.body hd.root] := by
                simp [fetchSlots, hskip, hh, hk, hb]
              rw [hef] at h
              rcases List.mem_cons.mp h with he | hm
              · injection he with hst2
                subst hst2
                exact ⟨List.mem_cons_self s rest, hlt⟩
              · exact absurd (List.mem_singleton.mp hm) (by simp)
            · have hef : (fetchSlots env cs cache k (t :: rest)).events =
                  FetchEvent.header t :: FetchEvent.body hd.root ::
                    (fetchSlots env cs
                      (fun s2 => if s2 = t then
                        some { root := hd.root, slot := t, header := hd.header, block := body }
                      else cache s2) (k + 1) rest).events := by
                simp [fetchSlots, hskip, hh, hk, hb]
              rw [hef] at h
              rcases List.mem_cons.mp h with he | hm
              · injection he with hst2
                subst hst2
                exact ⟨List.mem_cons_self s rest, hlt⟩
              · rcases List.mem_cons.mp hm with he2 | hm2
                · exact absurd he2 (by simp)
                · obtain ⟨hm3, hl⟩ := ih _ (k + 1) s hm2
                  exact ⟨List.mem_cons_of_mem t hm3, hl⟩

/-- Auxiliary: the fetch loop only ever adds cache entries for slots of
the visited list; any other populated slot was already populated on
entry. -/
theorem fetchSlots_cache_isSome (env : SyncEnv) (cs : Nat) :
    ∀ (slots : List Nat) (cache : Nat → Option CacheBlock) (k s : Nat),
    ((fetchSlots env cs cache k slots).cache s).isSome = true →
    (cache s).isSome = true ∨ s ∈ slots := by
  intro slots
  induction slots with
  | nil =>
    intro cache k s h
    exact Or.inl h
  | cons t rest ih =>
    intro cache k s h
    by_cases hskip : t ≤ cs
    · have hef : (fetchSlots env cs cache k (t :: rest)).cache =
          (fetchSlots env cs cache k rest).cache := by
        simp [fetchSlots, hskip]
      rw [hef] at h
      rcases ih cache k s h with hc | hm
      · exact Or.inl hc
      · exact Or.inr (List.mem_cons_of_mem t hm)
    · rcases hh : env.getBlockHeaderBySlot t with msg | oh
      · have hef : (fetchSlots env cs cache k (t :: rest)).cache = cache := by
          simp [fetchSlots, hskip, hh]
        rw [hef] at h
        exact Or.inl h
      · rcases oh with _ | hd
        · have hef : (fetchSlots env cs cache k (t :: rest)).cache =
              (fetchSlots env cs cache k rest).cache := by
            simp [fetchSlots, hskip, hh]
          rw [hef] at h
          rcases ih cache k s h with hc | hm
          · exact Or.inl hc
          · exact Or.inr (List.mem_cons_of_mem t hm)
        · by_cases hk : env.kill k
          · have hef : (fetchSlots env cs cache k (t :: rest)).cache = cache := by
              simp [fetchSlots, hskip, hh, hk]
            rw [hef] at h
            exact Or.inl h
          · rcases hb : env.getBlockBodyByBlockroot hd.root with msg | body
            · have hef : (fetchSlots env cs cache k (t :: rest)).cache = cache := by
                simp [fetchSlots, hskip, hh, hk, hb]
              rw [hef] at h
              exact Or.inl h
            · have hef : (fetchSlots env cs cache k (t :: rest)).cache =
                  (fetchSlots env cs
                    (fun s2 => if s2 = t then
                      some { root := hd.root, slot := t, header := hd.header, block := body }
                    else cache s2) (k + 1) rest).cache := by
                simp [fetchSlots, hskip, hh, hk, hb]
              rw [hef] at h
              rcases ih _ (k + 1) s h with hc | hm
              · by_cases hst : s = t
                · exact Or.inr (hst ▸ List.mem_cons_self t rest)
                · simp only [hst, if_false] at hc
                  exact Or.inl hc
              · exact Or.inr (List.mem_cons_of_mem t hm)

/-- First Epoch Step of the C9 counterexample run: epoch 0 under
`envBlocks`, from the fresh worker state. -/
def c9r1 : EpochResult := syncEpoch envBlocks stInit dbEmpty 0 0

/-- Second Epoch Step of the C9 counterexample run: epoch 2 (an
increasing but non-consecutive successor of epoch 0). -/
def c9r2 : EpochResult := syncEpoch envBlocks c9r1.st c9r1.db c9r1.killCtr 2

/-- C9 counterexample: a sequence of Epoch Step calls with increasing
epoch numbers 0, 2 in which both calls persist successfully, yet after
the second call the cache still holds slot 2 — a slot below epoch 2's
own range (first slot 4) and below the next current epoch's range —
because eviction only ever removes the processed epoch's own range and
epoch 0's lookahead entries are never evicted by epoch 2.  This refutes
the claim for arbitrary increasing sequences. -/
theorem cache_monotonicity_counterexample :
    c9r1.done = true ∧ c9r2.done = true ∧
    (c9r2.st.cachedBlocks 2).isSome = true ∧
    2 < 2 * envBlocks.slotsPerEpoch := by
  decide

/-- C9 (amended): for the consecutive epoch sequence the worker actually
drives, the invariant is preserved step by step: if every populated
cache slot on entry is at least the epoch's first slot, then after a
successful persist every populated slot is at least the NEXT epoch's
first slot; moreover every header request of the step targets a slot
strictly above the entry high-water mark and at most the exit high-water
mark, so no already-covered slot is ever requested again. -/
theorem syncEpoch_cache_monotonic (env : SyncEnv) (st : SyncState) (db : DbState)
    (k e : Nat) (hspe : 0 < env.slotsPerEpoch)
    (hsync : db.isEpochSynchronized e = false)
    (hinv : ∀ s, (st.cachedBlocks s).isSome = true → e * env.slotsPerEpoch ≤ s)
    (hdone : (syncEpoch env st db k e).done = true) :
    (∀ s, ((syncEpoch env st db k e).st.cachedBlocks s).isSome = true →
      (e + 1) * env.slotsPerEpoch ≤ s) ∧
    (∀ s, FetchEvent.header s ∈ (syncEpoch env st db k e).trace →
      st.cachedSlot < s ∧ s ≤ (syncEpoch env st db k e).st.cachedSlot) := by
  obtain ⟨-, hcb, hcs, htr⟩ := syncEpoch_success_shape env st db k e hsync hdone
  have hmul : (e + 1) * env.slotsPerEpoch = e * env.slotsPerEpoch + env.slotsPerEpoch :=
    Nat.succ_mul e env.slotsPerEpoch
  constructor
  · intro s hsome
    rw [congrFun hcb s, evictSlots_apply] at hsome
    by_cases hmem : s ∈ ownSlots env e
    · rw [if_pos hmem] at hsome
      cases hsome
    rw [if_neg hmem] at hsome
    have hor := fetchSlots_cache_isSome env st.cachedSlot (twoEpochSlots env e)
      st.cachedBlocks (k + 1) s hsome
    have hlow : e * env.slotsPerEpoch ≤ s := by
      rcases hor with hold | hnew
      · exact hinv s hold
      · rw [twoEpochSlots_eq env e hspe] at hnew
        exact (List.mem_range'_1.mp hnew).1
    rcases Nat.lt_or_ge s (e * env.slotsPerEpoch + env.slotsPerEpoch) with hlt2 | hge
    · exact absurd
        (by rw [ownSlots_eq env e hspe]; exact List.mem_range'_1.mpr ⟨hlow, hlt2⟩) hmem
    · omega
  · intro s hs
    have hev := htr s hs
    obtain ⟨hmem, hlt⟩ := fetchSlots_header_mem env st.cachedSlot (twoEpochSlots env e)
      st.cachedBlocks (k + 1) s hev
    rw [twoEpochSlots_eq env e hspe] at hmem
    have hb := List.mem_range'_1.mp hmem
    rw [hcs]
    exact ⟨hlt, by omega⟩

/-- C9 witness: for the successful epoch-0 step under `envBlocks`, the
surviving cached slot 2 is at least the next epoch's first slot, and
the header request for slot 3 lies strictly above the entry high-water
mark 0 and at most the exit high-water mark. -/
theorem syncEpoch_cache_monotonic_witness :
    (0 + 1) * envBlocks.slotsPerEpoch ≤ 2 ∧
    (stInit.cachedSlot < 3 ∧ 3 ≤ (syncEpoch envBlocks stInit dbEmpty 0 0).st.cachedSlot) := by
  have h := syncEpoch_cache_monotonic envBlocks stInit dbEmpty 0 0
    (by decide) (by decide) (by intro s _; simp) (by decide)
  exact ⟨h.1 2 (by decide), h.2 3 (by decide)⟩
